import Mathlib

/-!
Shallow embedding of the Streamable HTTP transport of the lakehouse42
MCP server (`src/http-transport.ts`) and proofs about it.

Modelling conventions:
* JavaScript objects carried over the wire are modelled by the `Json`
  inductive; `JSON.stringify` is modelled by `Json.stringify` (string
  escaping is not modelled, no claim depends on it).
* Times are milliseconds since the epoch, as `Nat` (`Date.now()`,
  `Session.createdAt`); JavaScript computes `now - createdAt` on values
  where `now >= createdAt` never fails in practice, and for a session
  created in the future both JS (negative difference) and the `Nat`
  truncated subtraction classify the session as not expired.
* The module-global `sessions : Map<string, Session>` is modelled as a
  `Store` (a list of sessions in insertion order, ids unique in every
  reachable state); `Map.set` keeps insertion order when the key exists
  and appends otherwise, `Map.delete` removes the entry.  Handlers that
  mutate the map or a session object in place are modelled as functions
  returning the new store.
* `crypto.randomUUID()` is modelled by passing the generated id as an
  explicit `freshId` argument; uniqueness of UUIDs becomes a freshness
  hypothesis where needed.
* The external `ToolExecutor` collaborator is a parameter
  `String → Json → Except String Json`: `.error msg` models a raised
  exception whose `.message` is `msg`.
* `new URL(...)` (which throws on a malformed base) and the body read
  (whose promise can reject on a stream error) are the two fallible
  steps of the router that are not guarded by any `try`; they are
  modelled by the `urlOk` / `bodyReadOk` fields of `HttpRequest`, and
  `handleRequest` returns `Except String _` where `.error` is an
  exception escaping the router uncaught.
-/

/-- JSON values. -/
inductive Json where
  | null : Json
  | bool (b : Bool) : Json
  | num (n : Int) : Json
  | str (s : String) : Json
  | arr (elems : List Json) : Json
  | obj (fields : List (String × Json)) : Json

mutual

/-- Model of JSON.stringify (string escaping not modelled). -/
def Json.stringify : Json → String
  | .null => "null"
  | .bool true => "true"
  | .bool false => "false"
  | .num n => toString n
  | .str s => "\"" ++ s ++ "\""
  | .arr elems => "[" ++ Json.stringifyElems elems ++ "]"
  | .obj fields => "\x7b" ++ Json.stringifyFields fields ++ "\x7d"

def Json.stringifyElems : List Json → String
  | [] => ""
  | [v] => Json.stringify v
  | v :: rest => Json.stringify v ++ "," ++ Json.stringifyElems rest

def Json.stringifyFields : List (String × Json) → String
  | [] => ""
  | [(k, v)] => "\"" ++ k ++ "\":" ++ Json.stringify v
  | (k, v) :: rest =>
      "\"" ++ k ++ "\":" ++ Json.stringify v ++ "," ++ Json.stringifyFields rest

end

/-- A JSON-RPC request id: `id?: string | number`. -/
inductive RpcId where
  | str (s : String) : RpcId
  | num (n : Int) : RpcId
deriving DecidableEq

/-- The parameter object of a request, as far as the dispatcher reads it:
`params?.name` and `params?.arguments`.  A JavaScript string is falsy
exactly when it is empty, so `name = some ""` fails the
`!params?.name` guard just like an absent name. -/
structure RpcParams where
  name : Option String := none
  arguments : Option Json := none

/-- `JsonRpcRequest` (the `jsonrpc: "2.0"` tag is constant and omitted). -/
structure JsonRpcRequest where
  id : Option RpcId := none
  method : String
  params : Option RpcParams := none

/-- The `error` member of a response. -/
structure RpcError where
  code : Int
  message : String

/-- `JsonRpcResponse` (the `jsonrpc: "2.0"` tag is constant and omitted). -/
structure JsonRpcResponse where
  id : Option RpcId := none
  result : Option Json := none
  error : Option RpcError := none

/-- The external ToolInvoker collaborator:
`execute(name, args)` returns a value or raises a message. -/
abbrev ToolExecutor : Type := String → Json → Except String Json

/-- Configuration of an `HttpTransport` instance: the injected tool
executor, the static `TOOL_DEFINITIONS` registry (supplied by
`tools.ts`, out of scope here), and the server name/version with the
constructor defaults. -/
structure TransportCfg where
  exec : ToolExecutor
  toolDefs : Json
  serverName : String := "lakehouse42"
  serverVersion : String := "0.1.0"

/-- The `initialize` result object. -/
def initializeResult (cfg : TransportCfg) : Json :=
  Json.obj
    [ ("protocolVersion", Json.str "2025-03-26"),
      ("capabilities", Json.obj [("tools", Json.obj []), ("resources", Json.obj [])]),
      ("serverInfo",
        Json.obj
          [ ("name", Json.str cfg.serverName),
            ("version", Json.str cfg.serverVersion) ]) ]

/-- The `tools/call` success result: a single text content block holding
the JSON serialization of the executor's return value. -/
def toolCallResult (v : Json) : Json :=
  Json.obj
    [ ("content",
        Json.arr
          [ Json.obj
              [ ("type", Json.str "text"),
                ("text", Json.str (Json.stringify v)) ] ]) ]

/-- `HttpTransport.processRequest`: interpret one JSON-RPC request.
The source wraps the whole `switch` in a `try`; only the `tools/call`
branch can throw (the explicit `throw new Error("Tool name required")`
and the executor call), so the `catch` is modelled in that branch. -/
def processRequest (cfg : TransportCfg) (request : JsonRpcRequest) : JsonRpcResponse :=
  let id := request.id
  match request.method with
  | "initialize" => { id := id, result := some (initializeResult cfg) }
  | "tools/list" => { id := id, result := some (Json.obj [("tools", cfg.toolDefs)]) }
  | "tools/call" =>
      let name := (request.params.bind (·.name)).getD ""
      if name = "" then
        { id := id, error := some { code := -32000, message := "Tool name required" } }
      else
        let args := (request.params.bind (·.arguments)).getD (Json.obj [])
        match cfg.exec name args with
        | .ok v => { id := id, result := some (toolCallResult v) }
        | .error msg => { id := id, error := some { code := -32000, message := msg } }
  | "ping" => { id := id, result := some (Json.obj []) }
  | m => { id := id, error := some { code := -32601, message := "Method not found: " ++ m } }

/-- A buffered/emitted SSE frame `{id, data}`. -/
structure Frame where
  id : Nat
  data : JsonRpcResponse

/-- `Session` state. -/
structure Session where
  id : String
  createdAt : Nat
  lastEventId : Nat
  pendingEvents : List Frame

/-- The module-global `sessions` map, in insertion order. -/
abbrev Store : Type := List Session

/-- `sessions.get(id)` (first entry with the key; keys are unique in
every reachable store). -/
def storeFind : Store → String → Option Session
  | [], _ => none
  | s :: rest, sid => if s.id = sid then some s else storeFind rest sid

/-- `sessions.has(id)`. -/
def storeHas : Store → String → Bool
  | [], _ => false
  | s :: rest, sid => s.id = sid || storeHas rest sid

/-- In-place mutation of a session object already held by the map
(`++session.lastEventId`): the entry with that key now shows the new
state, insertion order unchanged. -/
def storeUpdate : Store → Session → Store
  | [], _ => []
  | t :: rest, s => (if t.id = s.id then s else t) :: storeUpdate rest s

/-- `sessions.set(session.id, session)`: replace the entry when the key
exists (keeping insertion order), append otherwise. -/
def storeSet (store : Store) (s : Session) : Store :=
  if storeHas store s.id then storeUpdate store s else store ++ [s]

/-- `sessions.delete(id)`. -/
def storeDelete : Store → String → Store
  | [], _ => []
  | t :: rest, sid => if t.id = sid then storeDelete rest sid else t :: storeDelete rest sid

/-- `SESSION_TTL_MS = 30 * 60 * 1000`. -/
def SESSION_TTL_MS : Nat := 30 * 60 * 1000

/-- `createSession()`: fresh id (the generated UUID is the `freshId`
argument), `createdAt = Date.now()`, zero counter, empty buffer;
inserted into the store. -/
def createSession (store : Store) (now : Nat) (freshId : String) : Session × Store :=
  let s : Session := { id := freshId, createdAt := now, lastEventId := 0, pendingEvents := [] }
  (s, storeSet store s)

/-- `getSession(id)`: look the session up and lazily evict it when
`Date.now() - createdAt > SESSION_TTL_MS`.  Returns the result together
with the store after any lazy eviction. -/
def getSession (store : Store) (now : Nat) (sid : String) : Option Session × Store :=
  match storeFind store sid with
  | none => (none, store)
  | some s =>
      if now - s.createdAt > SESSION_TTL_MS then
        (none, storeDelete store sid)
      else
        (some s, store)

/-- Character-list prefix match. -/
def leadMatch : List Char → List Char → Bool
  | [], _ => true
  | _ :: _, [] => false
  | p :: ps, c :: cs => p == c && leadMatch ps cs

/-- Substring containment on character lists. -/
def hasSubList (pat : List Char) : List Char → Bool
  | [] => leadMatch pat []
  | c :: cs => leadMatch pat (c :: cs) || hasSubList pat cs

/-- The streaming-mode test: `acceptHeader.includes("text/event-stream")`. -/
def wantsEventStream (accept : String) : Bool :=
  hasSubList "text/event-stream".data accept.data

/-- Decimal digit run to a number. -/
def digitsVal (ds : List Char) : Nat :=
  ds.foldl (fun a c => a * 10 + (c.toNat - 48)) 0

/-- Model of `parseInt(s, 10)`: skip spaces, optional sign, then a
leading digit run; `none` models `NaN`. -/
def parseIntJS (s : String) : Option Int :=
  let cs := s.data.dropWhile (fun c => c == ' ')
  match cs with
  | '-' :: rest =>
      let ds := rest.takeWhile Char.isDigit
      if ds.isEmpty then none else some (-(digitsVal ds : Int))
  | '+' :: rest =>
      let ds := rest.takeWhile Char.isDigit
      if ds.isEmpty then none else some (digitsVal ds : Int)
  | _ =>
      let ds := cs.takeWhile Char.isDigit
      if ds.isEmpty then none else some (digitsVal ds : Int)

/-- The comparison `e.id > lastId` where `lastId` may be `NaN` (`none`):
any comparison against `NaN` is false. -/
def idAfterCursor (eid : Nat) : Option Int → Bool
  | none => false
  | some v => v < (eid : Int)

/-- HTTP request methods as the router distinguishes them. -/
inductive HttpMethod where
  | get : HttpMethod
  | post : HttpMethod
  | delete : HttpMethod
  | options : HttpMethod
  | other (s : String) : HttpMethod
deriving DecidableEq

/-- An inbound HTTP request, reduced to the fields the transport reads.
`body` is the JSON.parse outcome of the request body (`none` models a
body that is not valid JSON); `urlOk` is whether `new URL(req.url, ...)`
succeeds (it throws on a malformed base, e.g. a bad Host header);
`bodyReadOk` is whether reading the body stream succeeds (the promise
rejects on a stream error). -/
structure HttpRequest where
  method : HttpMethod
  path : String
  sessionHeader : Option String := none
  lastEventIdHeader : Option String := none
  accept : String := ""
  body : Option JsonRpcRequest := none
  urlOk : Bool := true
  bodyReadOk : Bool := true

/-- What the handler wrote as the response body. -/
inductive ResponseBody where
  | empty : ResponseBody
  | jsonError (msg : String) : ResponseBody
  | rpc (r : JsonRpcResponse) : ResponseBody
  | sse (frames : List Frame) : ResponseBody
  | health (status serverName version : String) : ResponseBody

/-- An HTTP response, reduced to status, the `Mcp-Session-Id` response
header, and the body. -/
structure HttpResponse where
  status : Nat
  sessionIdHeader : Option String := none
  body : ResponseBody := ResponseBody.empty

/-- Tail of `handlePost` once the session is resolved: dispatch via
`processRequest`, then answer as a one-shot SSE stream (allocating
`++session.lastEventId`) or as a plain JSON body depending on the
`Accept` header.  The source never appends the emitted frame to
`session.pendingEvents`. -/
def postRespond (cfg : TransportCfg) (store : Store) (session : Session)
    (request : JsonRpcRequest) (accept : String) : HttpResponse × Store :=
  let response := processRequest cfg request
  if wantsEventStream accept then
    let eventId := session.lastEventId + 1
    let session' := { session with lastEventId := eventId }
    ({ status := 200, sessionIdHeader := some session.id,
       body := ResponseBody.sse [{ id := eventId, data := response }] },
      storeUpdate store session')
  else
    ({ status := 200, sessionIdHeader := some session.id,
       body := ResponseBody.rpc response }, store)

/-- `HttpTransport.handlePost`: parse the body, resolve the session from
the `Mcp-Session-Id` header (404 when absent or expired) or create one
when no header is present, then dispatch and respond. -/
def handlePost (cfg : TransportCfg) (store : Store) (now : Nat) (freshId : String)
    (req : HttpRequest) : HttpResponse × Store :=
  match req.body with
  | none => ({ status := 400, body := ResponseBody.jsonError "Invalid JSON" }, store)
  | some request =>
      match req.sessionHeader with
      | some sid =>
          match getSession store now sid with
          | (none, store₁) =>
              ({ status := 404, body := ResponseBody.jsonError "Session not found" }, store₁)
          | (some session, store₁) => postRespond cfg store₁ session request req.accept
      | none =>
          let (session, store₁) := createSession store now freshId
          postRespond cfg store₁ session request req.accept

/-- `HttpTransport.handleGet`: open the SSE stream for an existing valid
session and, when a truthy `Last-Event-ID` header is present, replay the
buffered frames with id greater than the parsed cursor. -/
def handleGet (store : Store) (now : Nat) (req : HttpRequest) : HttpResponse × Store :=
  match req.sessionHeader with
  | none =>
      ({ status := 400, body := ResponseBody.jsonError "Mcp-Session-Id header required" }, store)
  | some sid =>
      match getSession store now sid with
      | (none, store₁) =>
          ({ status := 404, body := ResponseBody.jsonError "Session not found" }, store₁)
      | (some session, store₁) =>
          let frames :=
            match req.lastEventIdHeader with
            | some h =>
                if h = "" then []
                else
                  let lastId := parseIntJS h
                  session.pendingEvents.filter (fun e => idAfterCursor e.id lastId)
            | none => []
          ({ status := 200, sessionIdHeader := some sid, body := ResponseBody.sse frames },
            store₁)

/-- `HttpTransport.handleDelete`: drop the session when a header names
one; always 204. -/
def handleDelete (store : Store) (req : HttpRequest) : HttpResponse × Store :=
  match req.sessionHeader with
  | some sid => ({ status := 204 }, storeDelete store sid)
  | none => ({ status := 204 }, store)

/-- `HttpTransport.handleRequest`: URL parse, CORS, OPTIONS preflight,
then routing on `url.pathname`.  There is no `try` in this function or
in the `createHttpHandler` wrapper, so a throwing step (URL parse, body
read) escapes as `Except.error` instead of becoming a response. -/
def handleRequest (cfg : TransportCfg) (store : Store) (now : Nat) (freshId : String)
    (req : HttpRequest) : Except String (HttpResponse × Store) :=
  if !req.urlOk then Except.error "Invalid URL" else
  if req.method = HttpMethod.options then Except.ok ({ status := 204 }, store) else
  if req.path = "/mcp" || req.path = "/" then
    match req.method with
    | HttpMethod.post =>
        if !req.bodyReadOk then Except.error "body stream error"
        else Except.ok (handlePost cfg store now freshId req)
    | HttpMethod.get => Except.ok (handleGet store now req)
    | HttpMethod.delete => Except.ok (handleDelete store req)
    | _ => Except.ok ({ status := 405 }, store)
  else if req.path = "/health" then
    Except.ok
      ({ status := 200,
         body := ResponseBody.health "ok" cfg.serverName cfg.serverVersion }, store)
  else
    Except.ok ({ status := 404 }, store)

/-- One transport operation applied to the shared store, with the
ambient data each handler reads (`Date.now()` and the UUID generated if
a session is created). -/
inductive Op where
  | post (now : Nat) (freshId : String) (req : HttpRequest) : Op
  | get (now : Nat) (req : HttpRequest) : Op
  | del (req : HttpRequest) : Op

/-- The event ids newly allocated by a response, tagged with the session
they belong to: exactly the frames of a one-shot POST SSE answer.  A GET
answer replays previously allocated frames and allocates no id, so it
contributes nothing here. -/
def emittedOf (resp : HttpResponse) : List (String × Nat) :=
  match resp.sessionIdHeader, resp.body with
  | some sid, ResponseBody.sse frames => frames.map (fun f => (sid, f.id))
  | _, _ => []

/-- Apply one operation to the store; also report the newly allocated
event ids. -/
def applyOp (cfg : TransportCfg) (store : Store) : Op → Store × List (String × Nat)
  | Op.post now freshId req =>
      let (resp, store') := handlePost cfg store now freshId req
      (store', emittedOf resp)
  | Op.get now req => ((handleGet store now req).2, [])
  | Op.del req => ((handleDelete store req).2, [])

/-- Run a sequence of operations, accumulating the allocated ids. -/
def runOps (cfg : TransportCfg) (store : Store) : List Op → Store × List (String × Nat)
  | [] => (store, [])
  | op :: rest =>
      let (store', em) := applyOp cfg store op
      let (store'', ems) := runOps cfg store' rest
      (store'', em ++ ems)

/-- The ids allocated for one particular session. -/
def emittedForSid (sid : String) (ems : List (String × Nat)) : List Nat :=
  (ems.filter (fun p => p.1 == sid)).map Prod.snd

/-- The run `[c+1, c+2, ..., c+k]` of `k` consecutive ids after `c`. -/
def consecIds : Nat → Nat → List Nat
  | _, 0 => []
  | c, k + 1 => (c + 1) :: consecIds (c + 1) k

/-- An operation neither deletes session `sid` nor creates a session
under that id (the freshly generated UUID differs from `sid`). -/
def opAvoids (sid : String) : Op → Bool
  | Op.post _ freshId _ => !(freshId == sid)
  | Op.get _ _ => true
  | Op.del req =>
      match req.sessionHeader with
      | some tid => !(tid == sid)
      | none => true

/-- A tool executor with no tools: every invocation raises. -/
def execAbsent : ToolExecutor := fun _ _ => Except.error "not found"

/-- A transport over `execAbsent` with an empty registry. -/
def cfg0 : TransportCfg := { exec := execAbsent, toolDefs := Json.arr [] }

/-- The request `{"jsonrpc":"2.0","id":1,"method":"ping"}`. -/
def pingReq : JsonRpcRequest := { id := some (RpcId.num 1), method := "ping" }

/-- The response `{"jsonrpc":"2.0","id":1,"result":{}}`. -/
def pingResp : JsonRpcResponse := { id := some (RpcId.num 1), result := some (Json.obj []) }

/-- A ping POST with `Accept: text/event-stream` and no session header. -/
def pingSsePost : HttpRequest :=
  { method := HttpMethod.post, path := "/mcp",
    accept := "text/event-stream", body := some pingReq }

/-- A request whose URL parse throws (e.g. malformed Host header). -/
def badUrlReq : HttpRequest :=
  { method := HttpMethod.post, path := "/mcp", body := some pingReq, urlOk := false }

/-- A request whose body stream errors while being read. -/
def badBodyReq : HttpRequest :=
  { method := HttpMethod.post, path := "/mcp", body := some pingReq, bodyReadOk := false }

/-- A session holding three buffered frames with ids 1, 2, 3. -/
def sessWithFrames : Session :=
  { id := "sess", createdAt := 0, lastEventId := 3,
    pendingEvents :=
      [{ id := 1, data := pingResp }, { id := 2, data := pingResp },
       { id := 3, data := pingResp }] }

/-- A GET opening the stream for that session with replay cursor "1". -/
def replayGetReq : HttpRequest :=
  { method := HttpMethod.get, path := "/mcp",
    sessionHeader := some "sess", lastEventIdHeader := some "1" }

/-- A streamed ping POST addressed to the session "s". -/
def postSseToS : HttpRequest :=
  { method := HttpMethod.post, path := "/mcp", sessionHeader := some "s",
    accept := "text/event-stream", body := some pingReq }

theorem storeFind_cons {t : Session} {rest : Store} {sid : String} :
    storeFind (t :: rest) sid = if t.id = sid then some t else storeFind rest sid := rfl

theorem storeUpdate_cons {t : Session} {rest : Store} {s : Session} :
    storeUpdate (t :: rest) s = (if t.id = s.id then s else t) :: storeUpdate rest s := rfl

theorem storeDelete_cons {t : Session} {rest : Store} {sid : String} :
    storeDelete (t :: rest) sid
      = if t.id = sid then storeDelete rest sid else t :: storeDelete rest sid := rfl

theorem storeFind_update_ne {s : Session} {sid : String} (h : s.id ≠ sid) :
    ∀ store : Store, storeFind (storeUpdate store s) sid = storeFind store sid
  | [] => rfl
  | t :: rest => by
      have ih := storeFind_update_ne h rest
      rw [storeUpdate_cons]
      by_cases ht : t.id = s.id
      · have ht2 : t.id ≠ sid := by rw [ht]; exact h
        rw [if_pos ht, storeFind_cons, storeFind_cons, if_neg h, if_neg ht2, ih]
      · rw [if_neg ht, storeFind_cons, storeFind_cons, ih]

theorem storeFind_update_self {s u : Session} :
    ∀ {store : Store}, storeFind store s.id = some u →
      storeFind (storeUpdate store s) s.id = some s := by
  intro store
  induction store with
  | nil => intro h; simp [storeFind] at h
  | cons t rest ih =>
      intro h
      by_cases ht : t.id = s.id
      · simp [storeUpdate, storeFind, ht]
      · simp only [storeFind, ht, if_false] at h
        simp [storeUpdate, storeFind, ht, ih h]

theorem storeFind_delete_self {sid : String} :
    ∀ store : Store, storeFind (storeDelete store sid) sid = none
  | [] => rfl
  | t :: rest => by
      have ih := @storeFind_delete_self sid rest
      by_cases ht : t.id = sid <;> simp [storeDelete, storeFind, ht, ih]

theorem storeFind_delete_ne {sid tid : String} (h : sid ≠ tid) :
    ∀ store : Store, storeFind (storeDelete store sid) tid = storeFind store tid
  | [] => rfl
  | t :: rest => by
      have ih := storeFind_delete_ne h rest
      rw [storeDelete_cons]
      by_cases ht : t.id = sid
      · have ht2 : t.id ≠ tid := by rw [ht]; exact h
        rw [if_pos ht, ih, storeFind_cons, if_neg ht2]
      · rw [if_neg ht, storeFind_cons, storeFind_cons, ih]

theorem storeFind_append_none {s : Session} {sid : String} :
    ∀ {store : Store}, storeFind store sid = none →
      storeFind (store ++ [s]) sid = if s.id = sid then some s else none := by
  intro store
  induction store with
  | nil => intro _; simp [storeFind]
  | cons t rest ih =>
      intro h
      by_cases ht : t.id = sid
      · simp [storeFind, ht] at h
      · simp only [storeFind, ht, if_false] at h
        simp [storeFind, ht, ih h]

theorem storeHas_eq_false {sid : String} :
    ∀ {store : Store}, storeFind store sid = none → storeHas store sid = false := by
  intro store
  induction store with
  | nil => intro _; rfl
  | cons t rest ih =>
      intro h
      by_cases ht : t.id = sid
      · simp [storeFind, ht] at h
      · simp only [storeFind, ht, if_false] at h
        simp [storeHas, ht, ih h]

theorem storeSet_fresh {store : Store} {s : Session}
    (h : storeFind store s.id = none) : storeSet store s = store ++ [s] := by
  simp [storeSet, storeHas_eq_false h]

theorem getSession_absent {store : Store} {now : Nat} {sid : String}
    (h : storeFind store sid = none) : getSession store now sid = (none, store) := by
  simp [getSession, h]

theorem getSession_expired {store : Store} {now : Nat} {sid : String} {s : Session}
    (h : storeFind store sid = some s) (hexp : now - s.createdAt > SESSION_TTL_MS) :
    getSession store now sid = (none, storeDelete store sid) := by
  simp [getSession, h, hexp]

theorem getSession_valid {store : Store} {now : Nat} {sid : String} {s : Session}
    (h : storeFind store sid = some s) (hfresh : ¬ now - s.createdAt > SESSION_TTL_MS) :
    getSession store now sid = (some s, store) := by
  simp [getSession, h, hfresh]

/-- C1: a POST with `Accept: text/event-stream` on a fresh session does
allocate event id 1 and emit exactly the one SSE frame, but the source
never persists the frame into `session.pendingEvents`: after the ping
POST the stored session has `lastEventId = 1` and an empty buffer, not
the claimed one-frame buffer.  (`handleGet` replays `pendingEvents`, so
nothing can ever be replayed.) -/
theorem claim_C1_frame_emitted_but_never_buffered :
    (handlePost cfg0 [] 0 "session-1" pingSsePost).1
      = { status := 200, sessionIdHeader := some "session-1",
          body := ResponseBody.sse [{ id := 1, data := pingResp }] }
    ∧ storeFind (handlePost cfg0 [] 0 "session-1" pingSsePost).2 "session-1"
      = some { id := "session-1", createdAt := 0, lastEventId := 1, pendingEvents := [] } := by
  exact ⟨rfl, rfl⟩

/-- C2: the router has no top-level catch: neither `handleRequest` nor
the `createHttpHandler` wrapper guards its fallible steps, so an
exception raised while handling a request (a throwing `new URL` on a
malformed Host header, a body-stream error) escapes as an uncaught
rejection instead of being converted to a 500 response. -/
theorem claim_C2_exception_escapes_router :
    handleRequest cfg0 [] 0 "u2" badUrlReq = Except.error "Invalid URL"
    ∧ handleRequest cfg0 [] 0 "u2" badBodyReq = Except.error "body stream error" := by
  exact ⟨rfl, rfl⟩

/-- C7: a session whose creation time lies more than `SESSION_TTL_MS`
in the past is expired: `getSession` reports `none` and lazily evicts
the entry, and a GET naming that session answers 404.  The hypotheses
constrain only `createdAt`; `lastEventId` and `pendingEvents` (the
traces of recent use) are arbitrary, so expiry is measured from
creation, not last access. -/
theorem claim_C7_ttl_expiry_from_creation
    (store : Store) (now : Nat) (sid : String) (s : Session) (lei : Option String)
    (h : storeFind store sid = some s)
    (hexp : now - s.createdAt > SESSION_TTL_MS) :
    getSession store now sid = (none, storeDelete store sid)
    ∧ storeFind (storeDelete store sid) sid = none
    ∧ handleGet store now
        { method := HttpMethod.get, path := "/mcp",
          sessionHeader := some sid, lastEventIdHeader := lei }
      = ({ status := 404, body := ResponseBody.jsonError "Session not found" },
          storeDelete store sid) := by
  refine ⟨getSession_expired h hexp, storeFind_delete_self store, ?_⟩
  simp [handleGet, getSession_expired h hexp]

/-- Witness for C7: a session created at time 0 with recent-looking
activity is unreachable at TTL + 1 ms. -/
theorem claim_C7_witness :
    getSession [{ id := "sess", createdAt := 0, lastEventId := 5, pendingEvents := [] }]
        1800001 "sess"
      = (none, storeDelete [{ id := "sess", createdAt := 0, lastEventId := 5, pendingEvents := [] }] "sess")
    ∧ storeFind
        (storeDelete [{ id := "sess", createdAt := 0, lastEventId := 5, pendingEvents := [] }] "sess") "sess"
      = none
    ∧ handleGet [{ id := "sess", createdAt := 0, lastEventId := 5, pendingEvents := [] }] 1800001
        { method := HttpMethod.get, path := "/mcp",
          sessionHeader := some "sess", lastEventIdHeader := none }
      = ({ status := 404, body := ResponseBody.jsonError "Session not found" },
          storeDelete [{ id := "sess", createdAt := 0, lastEventId := 5, pendingEvents := [] }] "sess") :=
  claim_C7_ttl_expiry_from_creation _ 1800001 "sess"
    { id := "sess", createdAt := 0, lastEventId := 5, pendingEvents := [] } none rfl (by decide)

/-- C5: in `tools/call` dispatch, a missing `params.name` yields the
application error `-32000` "Tool name required"; an executor exception
is caught and becomes a `-32000` error carrying the raised message; on
success the return value is wrapped as one text content block holding
its JSON serialization; and the HTTP status of the POST stays 200 in
all of these cases (only the JSON-RPC envelope signals failure). -/
theorem claim_C5_tools_call_errors
    (cfg : TransportCfg) (rid : Option RpcId) :
    (∀ p : Option RpcParams, p.bind (·.name) = none →
        processRequest cfg { id := rid, method := "tools/call", params := p }
          = { id := rid, error := some { code := -32000, message := "Tool name required" } })
    ∧ (∀ (name : String) (args : Option Json) (msg : String), name ≠ "" →
        cfg.exec name (args.getD (Json.obj [])) = Except.error msg →
        processRequest cfg
            { id := rid, method := "tools/call",
              params := some { name := some name, arguments := args } }
          = { id := rid, error := some { code := -32000, message := msg } })
    ∧ (∀ (name : String) (args : Option Json) (v : Json), name ≠ "" →
        cfg.exec name (args.getD (Json.obj [])) = Except.ok v →
        processRequest cfg
            { id := rid, method := "tools/call",
              params := some { name := some name, arguments := args } }
          = { id := rid, result := some (toolCallResult v) })
    ∧ (∀ (store : Store) (now : Nat) (fid : String) (req : HttpRequest) (r : JsonRpcRequest),
        req.body = some r → req.sessionHeader = none →
        (handlePost cfg store now fid req).1.status = 200) := by
  refine ⟨?_, ?_, ?_, ?_⟩
  · intro p hp
    simp [processRequest, hp]
  · intro name args msg hn hexec
    simp [processRequest, hn, hexec]
  · intro name args v hn hexec
    simp [processRequest, hn, hexec]
  · intro store now fid req r hb hs
    rw [handlePost.eq_def, hb, hs]
    cases hws : wantsEventStream req.accept <;>
      simp [postRespond, createSession, hws]

/-- Witness for C5: a call without a name errors with "Tool name
required"; calling `missing_tool` against an executor that raises
"not found" yields error `-32000` with that message while the POST
answers 200. -/
theorem claim_C5_witness :
    processRequest cfg0 { id := some (RpcId.num 3), method := "tools/call", params := none }
      = { id := some (RpcId.num 3),
          error := some { code := -32000, message := "Tool name required" } }
    ∧ processRequest cfg0
        { id := some (RpcId.num 3), method := "tools/call",
          params := some { name := some "missing_tool", arguments := none } }
      = { id := some (RpcId.num 3), error := some { code := -32000, message := "not found" } }
    ∧ (handlePost cfg0 [] 0 "w5" pingSsePost).1.status = 200 :=
  ⟨(claim_C5_tools_call_errors cfg0 (some (RpcId.num 3))).1 none rfl,
    (claim_C5_tools_call_errors cfg0 (some (RpcId.num 3))).2.1 "missing_tool" none "not found"
      (by decide) rfl,
    (claim_C5_tools_call_errors cfg0 (some (RpcId.num 3))).2.2.2 [] 0 "w5" pingSsePost pingReq
      rfl rfl⟩

/-- C6: a dispatched request whose method is none of initialize,
tools/list, tools/call, ping gets the error `-32601` whose message names
the offending method, and every response echoes the request id
verbatim, including an absent id. -/
theorem claim_C6_unknown_method_and_id_echo (cfg : TransportCfg) :
    (∀ request : JsonRpcRequest,
        request.method ≠ "initialize" → request.method ≠ "tools/list" →
        request.method ≠ "tools/call" → request.method ≠ "ping" →
        processRequest cfg request
          = { id := request.id,
              error := some { code := -32601,
                              message := "Method not found: " ++ request.method } })
    ∧ (∀ request : JsonRpcRequest, (processRequest cfg request).id = request.id) := by
  constructor
  · intro request h1 h2 h3 h4
    rw [processRequest.eq_def]
    split
    · exact absurd (by assumption) h1
    · exact absurd (by assumption) h2
    · exact absurd (by assumption) h3
    · exact absurd (by assumption) h4
    · rfl
  · intro request
    rw [processRequest.eq_def]
    split
    · rfl
    · rfl
    · dsimp only
      split
      · rfl
      · split <;> rfl
    · rfl
    · rfl

/-- Witness for C6: dispatching method "frobnicate" with an absent id
answers `-32601` naming frobnicate, echoing the absent id. -/
theorem claim_C6_witness :
    processRequest cfg0 { method := "frobnicate" }
      = { id := none,
          error := some { code := -32601, message := "Method not found: frobnicate" } }
    ∧ (processRequest cfg0 { method := "frobnicate" }).id = none :=
  ⟨(claim_C6_unknown_method_and_id_echo cfg0).1 { method := "frobnicate" }
      (by decide) (by decide) (by decide) (by decide),
    (claim_C6_unknown_method_and_id_echo cfg0).2 { method := "frobnicate" }⟩

/-- Counterexample to C9: the router treats the root path "/" exactly
like "/mcp" (the source tests pathname against both), so a DELETE
request to "/" answers 204, not the 404 the claim demands for every
path other than "/mcp" and "/health". -/
theorem claim_C9_counterexample :
    handleRequest cfg0 [] 0 "c9" { method := HttpMethod.delete, path := "/" }
      = Except.ok ({ status := 204 }, [])
    ∧ (204 : Nat) ≠ 404 := by
  exact ⟨rfl, by decide⟩

/-- C9 as amended: for a parseable URL, OPTIONS answers 204 on every
path; POST/GET/DELETE on "/mcp" or on "/" go to the corresponding
handler; any other method on those two paths answers 405; every
non-OPTIONS request to "/health" answers the liveness body with 200;
and every non-OPTIONS request to any other path answers 404.  The case
split is total, so the router maps requests in no other way. -/
theorem claim_C9_routing_amended (cfg : TransportCfg) (store : Store) (now : Nat)
    (fid : String) (req : HttpRequest) (hurl : req.urlOk = true) :
    (req.method = HttpMethod.options →
        handleRequest cfg store now fid req = Except.ok ({ status := 204 }, store))
    ∧ (req.method = HttpMethod.post → (req.path = "/mcp" ∨ req.path = "/") →
        req.bodyReadOk = true →
        handleRequest cfg store now fid req = Except.ok (handlePost cfg store now fid req))
    ∧ (req.method = HttpMethod.get → (req.path = "/mcp" ∨ req.path = "/") →
        handleRequest cfg store now fid req = Except.ok (handleGet store now req))
    ∧ (req.method = HttpMethod.delete → (req.path = "/mcp" ∨ req.path = "/") →
        handleRequest cfg store now fid req = Except.ok (handleDelete store req))
    ∧ (∀ s, req.method = HttpMethod.other s → (req.path = "/mcp" ∨ req.path = "/") →
        handleRequest cfg store now fid req = Except.ok ({ status := 405 }, store))
    ∧ (req.method ≠ HttpMethod.options → req.path = "/health" →
        handleRequest cfg store now fid req
          = Except.ok
              ({ status := 200,
                 body := ResponseBody.health "ok" cfg.serverName cfg.serverVersion },
                store))
    ∧ (req.method ≠ HttpMethod.options → req.path ≠ "/mcp" → req.path ≠ "/" →
        req.path ≠ "/health" →
        handleRequest cfg store now fid req = Except.ok ({ status := 404 }, store)) := by
  refine ⟨?_, ?_, ?_, ?_, ?_, ?_, ?_⟩
  · intro hm
    simp [handleRequest, hurl, hm]
  · intro hm hp hbody
    rcases hp with hp | hp <;> simp [handleRequest, hurl, hm, hp, hbody]
  · intro hm hp
    rcases hp with hp | hp <;> simp [handleRequest, hurl, hm, hp]
  · intro hm hp
    rcases hp with hp | hp <;> simp [handleRequest, hurl, hm, hp]
  · intro s hm hp
    rcases hp with hp | hp <;> simp [handleRequest, hurl, hm, hp]
  · intro hm hp
    have h1 : req.path ≠ "/mcp" := by rw [hp]; decide
    have h2 : req.path ≠ "/" := by rw [hp]; decide
    cases hmm : req.method <;> simp_all [handleRequest]
  · intro hm h1 h2 h3
    cases hmm : req.method <;> simp_all [handleRequest]

/-- Witness for C9 amended: GET /health answers the liveness body, and
a GET to an unknown path answers 404. -/
theorem claim_C9_witness :
    handleRequest cfg0 [] 0 "w9" { method := HttpMethod.get, path := "/health" }
      = Except.ok ({ status := 200, body := ResponseBody.health "ok" "lakehouse42" "0.1.0" }, [])
    ∧ handleRequest cfg0 [] 0 "w9" { method := HttpMethod.get, path := "/nope" }
      = Except.ok ({ status := 404 }, []) :=
  ⟨(claim_C9_routing_amended cfg0 [] 0 "w9"
        { method := HttpMethod.get, path := "/health" } rfl).2.2.2.2.2.1 (by decide) rfl,
    (claim_C9_routing_amended cfg0 [] 0 "w9"
        { method := HttpMethod.get, path := "/nope" } rfl).2.2.2.2.2.2
      (by decide) (by decide) (by decide) (by decide)⟩

/-- Counterexample to C10: the body is parsed before the session check,
so a POST carrying an unknown `Mcp-Session-Id` but an unparseable body
answers 400 "Invalid JSON", not 404. -/
theorem claim_C10_counterexample :
    handlePost cfg0 [] 0 "c10"
        { method := HttpMethod.post, path := "/mcp", sessionHeader := some "ghost" }
      = ({ status := 400, body := ResponseBody.jsonError "Invalid JSON" }, [])
    ∧ (400 : Nat) ≠ 404 := by
  exact ⟨rfl, by decide⟩

/-- C10 as amended: a POST whose body parses and whose session header
names an absent or expired session answers 404 with an error JSON body
at the transport tier; the right-hand side mentions neither the
executor, the registry, nor the generated fresh id, so the JSON-RPC
dispatcher is never invoked and no session is created; the resulting
store is the input store except for lazy eviction of the expired
entry. -/
theorem claim_C10_amended (cfg : TransportCfg) (store : Store) (now : Nat) (fid : String)
    (req : HttpRequest) (r : JsonRpcRequest) (sid : String)
    (hb : req.body = some r) (hs : req.sessionHeader = some sid)
    (hnone : (getSession store now sid).1 = none) :
    handlePost cfg store now fid req
      = ({ status := 404, body := ResponseBody.jsonError "Session not found" },
          (getSession store now sid).2)
    ∧ ((getSession store now sid).2 = store
        ∨ (getSession store now sid).2 = storeDelete store sid) := by
  constructor
  · rcases hgs : getSession store now sid with ⟨o, st⟩
    rw [hgs] at hnone
    cases o with
    | none =>
        rw [handlePost.eq_def, hb, hs]
        dsimp only
        rw [hgs]
    | some s => simp at hnone
  · rw [getSession.eq_def]
    cases hf : storeFind store sid with
    | none => simp
    | some s =>
        by_cases hexp : now - s.createdAt > SESSION_TTL_MS
        · simp [hexp]
        · rw [getSession.eq_def, hf] at hnone
          simp [hexp] at hnone

/-- Witness for C10 amended: a ping POST naming an unknown session id
on the empty store answers 404 and leaves the store empty. -/
theorem claim_C10_witness :
    handlePost cfg0 [] 7 "w10"
        { method := HttpMethod.post, path := "/mcp",
          sessionHeader := some "ghost", body := some pingReq }
      = ({ status := 404, body := ResponseBody.jsonError "Session not found" },
          (getSession [] 7 "ghost").2)
    ∧ ((getSession [] 7 "ghost").2 = ([] : Store)
        ∨ (getSession [] 7 "ghost").2 = storeDelete [] "ghost") :=
  claim_C10_amended cfg0 [] 7 "w10"
    { method := HttpMethod.post, path := "/mcp",
      sessionHeader := some "ghost", body := some pingReq }
    pingReq "ghost" rfl rfl rfl

theorem storeUpdate_append_fresh {s s' : Session} (hid : s.id = s'.id) :
    ∀ {store : Store}, storeFind store s'.id = none →
      storeUpdate (store ++ [s]) s' = store ++ [s'] := by
  intro store
  induction store with
  | nil => intro _; simp [storeUpdate, hid]
  | cons t rest ih =>
      intro h
      rw [storeFind_cons] at h
      by_cases ht : t.id = s'.id
      · simp [ht] at h
      · simp only [ht, if_false] at h
        rw [List.cons_append, storeUpdate_cons, if_neg ht, ih h, List.cons_append]

/-- C8: a POST without an `Mcp-Session-Id` header creates a session
with the freshly generated id, zero event counter and empty buffer,
inserts it into the store, and answers with the id in the
`Mcp-Session-Id` header; a second POST carrying that id resolves to the
same session and continues the same event-id sequence (emitting id 2
after the first streamed response had id 1) with no counter reset.
Freshness of the generated UUID is the hypothesis `hfresh`. -/
theorem claim_C8_session_create_then_reuse
    (cfg : TransportCfg) (store : Store) (now now₂ : Nat) (fid fid₂ : String)
    (req req₂ : HttpRequest) (r r₂ : JsonRpcRequest)
    (hb : req.body = some r) (hs : req.sessionHeader = none)
    (hsse : wantsEventStream req.accept = true)
    (hfresh : storeFind store fid = none)
    (hb₂ : req₂.body = some r₂) (hs₂ : req₂.sessionHeader = some fid)
    (hsse₂ : wantsEventStream req₂.accept = true)
    (httl : ¬ now₂ - now > SESSION_TTL_MS) :
    createSession store now fid
      = ({ id := fid, createdAt := now, lastEventId := 0, pendingEvents := [] },
          store ++ [{ id := fid, createdAt := now, lastEventId := 0, pendingEvents := [] }])
    ∧ handlePost cfg store now fid req
      = ({ status := 200, sessionIdHeader := some fid,
           body := ResponseBody.sse [{ id := 1, data := processRequest cfg r }] },
          store ++ [{ id := fid, createdAt := now, lastEventId := 1, pendingEvents := [] }])
    ∧ handlePost cfg
        (store ++ [{ id := fid, createdAt := now, lastEventId := 1, pendingEvents := [] }])
        now₂ fid₂ req₂
      = ({ status := 200, sessionIdHeader := some fid,
           body := ResponseBody.sse [{ id := 2, data := processRequest cfg r₂ }] },
          store ++ [{ id := fid, createdAt := now, lastEventId := 2, pendingEvents := [] }]) := by
  have hcreate : createSession store now fid
      = ({ id := fid, createdAt := now, lastEventId := 0, pendingEvents := [] },
          store ++ [{ id := fid, createdAt := now, lastEventId := 0, pendingEvents := [] }]) := by
    rw [createSession]
    rw [@storeSet_fresh store { id := fid, createdAt := now, lastEventId := 0, pendingEvents := [] }
        hfresh]
  refine ⟨hcreate, ?_, ?_⟩
  · rw [handlePost.eq_def, hb, hs]
    dsimp only
    rw [hcreate]
    dsimp only
    rw [postRespond, hsse]
    rw [if_pos rfl]
    norm_num
    rw [@storeUpdate_append_fresh
        { id := fid, createdAt := now, lastEventId := 0, pendingEvents := [] }
        { id := fid, createdAt := now, lastEventId := 1, pendingEvents := [] }
        rfl store hfresh]
  · have hfind : storeFind
        (store ++ [{ id := fid, createdAt := now, lastEventId := 1, pendingEvents := [] }]) fid
        = some { id := fid, createdAt := now, lastEventId := 1, pendingEvents := [] } := by
      rw [storeFind_append_none hfresh]
      simp
    have hvalid := @getSession_valid
      (store ++ [{ id := fid, createdAt := now, lastEventId := 1, pendingEvents := [] }])
      now₂ fid { id := fid, createdAt := now, lastEventId := 1, pendingEvents := [] }
      hfind httl
    rw [handlePost.eq_def, hb₂, hs₂]
    dsimp only
    rw [hvalid]
    dsimp only
    rw [postRespond, hsse₂]
    rw [if_pos rfl]
    norm_num
    rw [@storeUpdate_append_fresh
        { id := fid, createdAt := now, lastEventId := 1, pendingEvents := [] }
        { id := fid, createdAt := now, lastEventId := 2, pendingEvents := [] }
        rfl store hfresh]

/-- Witness for C8: on the empty store, a streamed ping POST creates
session "uuid-1" and emits event id 1; a second streamed ping POST a
second later carrying that id emits event id 2. -/
theorem claim_C8_witness :
    createSession [] 1000 "uuid-1"
      = ({ id := "uuid-1", createdAt := 1000, lastEventId := 0, pendingEvents := [] },
          [{ id := "uuid-1", createdAt := 1000, lastEventId := 0, pendingEvents := [] }])
    ∧ handlePost cfg0 [] 1000 "uuid-1" pingSsePost
      = ({ status := 200, sessionIdHeader := some "uuid-1",
           body := ResponseBody.sse [{ id := 1, data := processRequest cfg0 pingReq }] },
          [{ id := "uuid-1", createdAt := 1000, lastEventId := 1, pendingEvents := [] }])
    ∧ handlePost cfg0
        [{ id := "uuid-1", createdAt := 1000, lastEventId := 1, pendingEvents := [] }]
        2000 "uuid-2"
        { method := HttpMethod.post, path := "/mcp", sessionHeader := some "uuid-1",
          accept := "text/event-stream", body := some pingReq }
      = ({ status := 200, sessionIdHeader := some "uuid-1",
           body := ResponseBody.sse [{ id := 2, data := processRequest cfg0 pingReq }] },
          [{ id := "uuid-1", createdAt := 1000, lastEventId := 2, pendingEvents := [] }]) := by
  have h := claim_C8_session_create_then_reuse cfg0 [] 1000 2000 "uuid-1" "uuid-2"
    pingSsePost
    { method := HttpMethod.post, path := "/mcp", sessionHeader := some "uuid-1",
      accept := "text/event-stream", body := some pingReq }
    pingReq pingReq rfl rfl (by decide) rfl rfl rfl (by decide) (by decide)
  exact h

theorem chain_consec_head_lt {x : Frame} :
    ∀ {l : List Frame}, List.Chain' (fun a b => b.id = a.id + 1) (x :: l) →
      ∀ y ∈ l, x.id < y.id := by
  intro l
  induction l generalizing x with
  | nil => intro _ y hy; cases hy
  | cons z rest ih =>
      intro h y hy
      rw [List.chain'_cons] at h
      rcases List.mem_cons.mp hy with hy | hy
      · rw [hy, h.1]
        exact Nat.lt_succ_self _
      · have h1 : x.id < z.id := by rw [h.1]; exact Nat.lt_succ_self _
        exact Nat.lt_trans h1 (ih h.2 y hy)

theorem chain_consec_pairwise :
    ∀ {l : List Frame}, List.Chain' (fun a b => b.id = a.id + 1) l →
      List.Pairwise (fun a b => a.id < b.id) l
  | [] => fun _ => List.Pairwise.nil
  | _ :: _ => fun h =>
      List.Pairwise.cons (chain_consec_head_lt h) (chain_consec_pairwise h.tail)

theorem chain_consec_filter (n : Int) :
    ∀ l : List Frame, List.Chain' (fun a b => b.id = a.id + 1) l →
      List.Chain' (fun a b => b.id = a.id + 1)
        (l.filter (fun e => idAfterCursor e.id (some n)))
  | [] => fun _ => List.chain'_nil
  | x :: rest => by
      intro h
      rw [List.filter_cons]
      by_cases hx : idAfterCursor x.id (some n) = true
      · rw [if_pos hx]
        have hall : rest.filter (fun e => idAfterCursor e.id (some n)) = rest := by
          apply List.filter_eq_self.mpr
          intro y hy
          have h1 : n < (x.id : Int) := by simpa [idAfterCursor] using hx
          have h2 : x.id < y.id := chain_consec_head_lt h y hy
          simp only [idAfterCursor, decide_eq_true_eq]
          omega
        rw [hall]
        exact h
      · rw [if_neg hx]
        exact chain_consec_filter n rest h.tail

/-- C3: a GET on a valid session carrying a `Last-Event-ID` header that
parses to `n` replays exactly the buffered frames with id strictly
greater than `n`: the replayed list is the filter of the buffer, its
membership is exactly (in the buffer and id > n), it is strictly
ascending with no duplicates, it has no gaps when the buffer has none
(the buffer invariant `hsorted`), and no frame with id at most `n` is
re-sent.  The connection stays open (the store is unchanged). -/
theorem claim_C3_replay_strictly_after_cursor
    (store : Store) (now : Nat) (req : HttpRequest) (sid hstr : String) (s : Session) (n : Int)
    (hs : req.sessionHeader = some sid)
    (hl : req.lastEventIdHeader = some hstr)
    (hne : ¬ hstr = "")
    (hparse : parseIntJS hstr = some n)
    (hfind : storeFind store sid = some s)
    (httl : ¬ now - s.createdAt > SESSION_TTL_MS)
    (hsorted : List.Chain' (fun a b => b.id = a.id + 1) s.pendingEvents) :
    handleGet store now req
      = ({ status := 200, sessionIdHeader := some sid,
           body := ResponseBody.sse
             (s.pendingEvents.filter (fun e => idAfterCursor e.id (some n))) }, store)
    ∧ (∀ f, f ∈ s.pendingEvents.filter (fun e => idAfterCursor e.id (some n)) ↔
          (f ∈ s.pendingEvents ∧ n < (f.id : Int)))
    ∧ List.Pairwise (fun a b => a.id < b.id)
        (s.pendingEvents.filter (fun e => idAfterCursor e.id (some n)))
    ∧ List.Chain' (fun a b => b.id = a.id + 1)
        (s.pendingEvents.filter (fun e => idAfterCursor e.id (some n)))
    ∧ (∀ f ∈ s.pendingEvents, (f.id : Int) ≤ n →
          f ∉ s.pendingEvents.filter (fun e => idAfterCursor e.id (some n))) := by
  refine ⟨?_, ?_, ?_, ?_, ?_⟩
  · rw [handleGet.eq_def, hs]
    dsimp only
    rw [getSession_valid hfind httl]
    dsimp only
    rw [hl]
    dsimp only
    rw [if_neg hne, hparse]
  · intro f
    rw [List.mem_filter]
    simp [idAfterCursor]
  · exact List.Pairwise.sublist (List.filter_sublist _) (chain_consec_pairwise hsorted)
  · exact chain_consec_filter n s.pendingEvents hsorted
  · intro f hf hle hmem
    rw [List.mem_filter] at hmem
    simp only [idAfterCursor, decide_eq_true_eq] at hmem
    omega

/-- Witness for C3: with buffered frames 1, 2, 3 and a Last-Event-ID of
"1", the replay is exactly the frames with ids 2 and 3, in order. -/
theorem claim_C3_witness :
    handleGet [sessWithFrames] 5 replayGetReq
      = ({ status := 200, sessionIdHeader := some "sess",
           body := ResponseBody.sse
             [{ id := 2, data := pingResp }, { id := 3, data := pingResp }] },
          [sessWithFrames]) := by
  have hchain : List.Chain' (fun a b : Frame => b.id = a.id + 1)
      [{ id := 1, data := pingResp }, { id := 2, data := pingResp },
       { id := 3, data := pingResp }] := by
    rw [List.chain'_cons, List.chain'_cons]
    exact ⟨rfl, rfl, List.chain'_singleton _⟩
  have h := (claim_C3_replay_strictly_after_cursor [sessWithFrames] 5 replayGetReq
      "sess" "1" sessWithFrames 1 rfl rfl (by decide) rfl rfl (by decide) hchain).1
  exact h

theorem storeFind_id {sid : String} :
    ∀ {store : Store} {u : Session}, storeFind store sid = some u → u.id = sid := by
  intro store
  induction store with
  | nil => intro u h; simp [storeFind] at h
  | cons t rest ih =>
      intro u h
      rw [storeFind_cons] at h
      by_cases ht : t.id = sid
      · rw [if_pos ht] at h
        injection h with h
        rw [← h]
        exact ht
      · rw [if_neg ht] at h
        exact ih h

theorem storeFind_append_ne {t : Session} {sid : String} (h : t.id ≠ sid) :
    ∀ store : Store, storeFind (store ++ [t]) sid = storeFind store sid
  | [] => by simp [storeFind_cons, storeFind, h]
  | u :: rest => by
      rw [List.cons_append, storeFind_cons, storeFind_cons,
        storeFind_append_ne h rest]

theorem storeFind_set_ne {t : Session} {sid : String} (h : t.id ≠ sid) (store : Store) :
    storeFind (storeSet store t) sid = storeFind store sid := by
  rw [storeSet]
  by_cases hh : storeHas store t.id = true
  · rw [if_pos hh]
    exact storeFind_update_ne h store
  · rw [if_neg hh]
    exact storeFind_append_ne h store

theorem emittedForSid_append {sid : String} (a b : List (String × Nat)) :
    emittedForSid sid (a ++ b) = emittedForSid sid a ++ emittedForSid sid b := by
  simp [emittedForSid]

theorem consecIds_length : ∀ c k : Nat, (consecIds c k).length = k
  | _, 0 => rfl
  | c, k + 1 => by rw [consecIds, List.length_cons, consecIds_length (c + 1) k]

theorem mem_consecIds : ∀ {c k x : Nat}, x ∈ consecIds c k → c < x := by
  intro c k
  induction k generalizing c with
  | zero => intro x hx; simp [consecIds] at hx
  | succ k ih =>
      intro x hx
      rw [consecIds] at hx
      rcases List.mem_cons.mp hx with hx | hx
      · rw [hx]; exact Nat.lt_succ_self _
      · exact Nat.lt_trans (Nat.lt_succ_self _) (ih hx)

theorem consecIds_pairwise : ∀ c k : Nat, List.Pairwise (· < ·) (consecIds c k)
  | _, 0 => List.Pairwise.nil
  | c, k + 1 => by
      rw [consecIds]
      exact List.Pairwise.cons (fun x hx => mem_consecIds hx) (consecIds_pairwise (c + 1) k)

theorem runOps_cons (cfg : TransportCfg) (store : Store) (op : Op) (rest : List Op) :
    runOps cfg store (op :: rest)
      = ((runOps cfg (applyOp cfg store op).1 rest).1,
          (applyOp cfg store op).2 ++ (runOps cfg (applyOp cfg store op).1 rest).2) := by
  rcases h : applyOp cfg store op with ⟨store₁, em⟩
  rw [runOps, h]

theorem runOps_append (cfg : TransportCfg) :
    ∀ (l₁ l₂ : List Op) (store : Store),
      runOps cfg store (l₁ ++ l₂)
        = ((runOps cfg (runOps cfg store l₁).1 l₂).1,
            (runOps cfg store l₁).2 ++ (runOps cfg (runOps cfg store l₁).1 l₂).2)
  | [], l₂, store => by simp [runOps]
  | op :: rest, l₂, store => by
      rw [List.cons_append, runOps_cons, runOps_append cfg rest l₂ (applyOp cfg store op).1,
        runOps_cons]
      simp [List.append_assoc]

theorem applyOp_post (cfg : TransportCfg) (store : Store) (now : Nat) (fid : String)
    (req : HttpRequest) :
    applyOp cfg store (Op.post now fid req)
      = ((handlePost cfg store now fid req).2, emittedOf (handlePost cfg store now fid req).1) := by
  rcases h : handlePost cfg store now fid req with ⟨resp, store₁⟩
  rw [applyOp, h]

theorem applyOp_get (cfg : TransportCfg) (store : Store) (now : Nat) (req : HttpRequest) :
    applyOp cfg store (Op.get now req) = ((handleGet store now req).2, []) := rfl

theorem applyOp_del (cfg : TransportCfg) (store : Store) (req : HttpRequest) :
    applyOp cfg store (Op.del req) = ((handleDelete store req).2, []) := rfl

theorem getSession_store_find (store : Store) (now : Nat) (tid sid : String) :
    storeFind (getSession store now tid).2 sid = storeFind store sid
    ∨ storeFind (getSession store now tid).2 sid = none := by
  rw [getSession.eq_def]
  cases hf : storeFind store tid with
  | none => exact Or.inl rfl
  | some u =>
      dsimp only
      by_cases hexp : now - u.createdAt > SESSION_TTL_MS
      · rw [if_pos hexp]
        by_cases ht : tid = sid
        · right
          dsimp only
          rw [← ht]
          exact storeFind_delete_self store
        · left
          dsimp only
          exact storeFind_delete_ne ht store
      · rw [if_neg hexp]
        exact Or.inl rfl

theorem getSession_some {store : Store} {now : Nat} {tid : String} {u : Session} {st : Store}
    (h : getSession store now tid = (some u, st)) :
    storeFind store tid = some u ∧ st = store := by
  rw [getSession.eq_def] at h
  cases hf : storeFind store tid with
  | none => rw [hf] at h; simp at h
  | some v =>
      rw [hf] at h
      dsimp only at h
      by_cases hexp : now - v.createdAt > SESSION_TTL_MS
      · rw [if_pos hexp] at h
        simp at h
      · rw [if_neg hexp] at h
        simp only [Prod.mk.injEq] at h
        obtain ⟨h1, h2⟩ := h
        injection h1 with h1
        rw [h1]
        exact ⟨rfl, h2.symm⟩

theorem applyOp_effect (cfg : TransportCfg) (sid : String) (store : Store) (op : Op)
    (hA : opAvoids sid op = true) :
    (emittedForSid sid (applyOp cfg store op).2 = []
        ∧ (storeFind (applyOp cfg store op).1 sid = storeFind store sid
            ∨ storeFind (applyOp cfg store op).1 sid = none))
    ∨ (∃ s, storeFind store sid = some s
        ∧ storeFind (applyOp cfg store op).1 sid
            = some { s with lastEventId := s.lastEventId + 1 }
        ∧ emittedForSid sid (applyOp cfg store op).2 = [s.lastEventId + 1]) := by
  cases op with
  | get now req =>
      left
      rw [applyOp_get]
      refine ⟨rfl, ?_⟩
      cases hs : req.sessionHeader with
      | none =>
          rw [handleGet.eq_def, hs]
          exact Or.inl rfl
      | some tid =>
          have h2 : (handleGet store now req).2 = (getSession store now tid).2 := by
            rw [handleGet.eq_def, hs]
            dsimp only
            rcases hgs : getSession store now tid with ⟨o, st⟩
            cases o <;> rfl
          rw [h2]
          exact getSession_store_find store now tid sid
  | del req =>
      left
      rw [applyOp_del]
      refine ⟨rfl, ?_⟩
      cases hs : req.sessionHeader with
      | none =>
          rw [handleDelete.eq_def, hs]
          exact Or.inl rfl
      | some tid =>
          have ht : tid ≠ sid := by simpa [opAvoids, hs] using hA
          left
          rw [handleDelete.eq_def, hs]
          dsimp only
          exact storeFind_delete_ne ht store
  | post now fid req =>
      have hfid : fid ≠ sid := by simpa [opAvoids] using hA
      rw [applyOp_post]
      cases hb : req.body with
      | none =>
          left
          rw [handlePost.eq_def, hb]
          exact ⟨rfl, Or.inl rfl⟩
      | some r =>
          cases hs : req.sessionHeader with
          | none =>
              left
              rw [handlePost.eq_def, hb, hs]
              dsimp only [createSession]
              rw [postRespond]
              cases hws : wantsEventStream req.accept
              · rw [if_neg (by simp)]
                exact ⟨rfl, Or.inl (storeFind_set_ne hfid store)⟩
              · rw [if_pos rfl]
                constructor
                · simp [emittedOf, emittedForSid, hfid]
                · left
                  rw [storeFind_update_ne hfid, storeFind_set_ne hfid]
          | some tid =>
              rcases hgs : getSession store now tid with ⟨o, st⟩
              cases o with
              | none =>
                  left
                  rw [handlePost.eq_def, hb, hs]
                  dsimp only
                  rw [hgs]
                  dsimp only
                  refine ⟨rfl, ?_⟩
                  have h3 := getSession_store_find store now tid sid
                  rw [hgs] at h3
                  exact h3
              | some u =>
                  obtain ⟨hfindu, hst⟩ := getSession_some hgs
                  rw [handlePost.eq_def, hb, hs]
                  dsimp only
                  rw [hgs, hst]
                  dsimp only
                  rw [postRespond]
                  cases hws : wantsEventStream req.accept
                  · rw [if_neg (by simp)]
                    exact Or.inl ⟨rfl, Or.inl rfl⟩
                  · rw [if_pos rfl]
                    dsimp only
                    have hu : u.id = tid := storeFind_id hfindu
                    by_cases htid : tid = sid
                    · right
                      subst htid
                      refine ⟨u, hfindu, ?_, ?_⟩
                      · rw [← hu]
                        exact storeFind_update_self
                          (by show storeFind store u.id = some u; rw [hu]; exact hfindu)
                      · simp [emittedOf, emittedForSid, hu]
                    · left
                      have hune : u.id ≠ sid := by rw [hu]; exact htid
                      constructor
                      · simp [emittedOf, emittedForSid, hune]
                      · exact Or.inl
                          (@storeFind_update_ne
                            { id := u.id, createdAt := u.createdAt,
                              lastEventId := u.lastEventId + 1,
                              pendingEvents := u.pendingEvents }
                            sid hune store)

theorem runOps_consec (cfg : TransportCfg) (sid : String) :
    ∀ (ops : List Op) (store : Store),
      (∀ op ∈ ops, opAvoids sid op = true) →
      ((storeFind store sid = none →
          storeFind (runOps cfg store ops).1 sid = none
          ∧ emittedForSid sid (runOps cfg store ops).2 = [])
      ∧ (∀ s, storeFind store sid = some s →
          ∃ k, emittedForSid sid (runOps cfg store ops).2 = consecIds s.lastEventId k
            ∧ ∀ s1, storeFind (runOps cfg store ops).1 sid = some s1 →
                s1.lastEventId = s.lastEventId + k))
  | [], store, _ => by
      constructor
      · intro h
        exact ⟨h, rfl⟩
      · intro s h
        refine ⟨0, rfl, fun s1 h1 => ?_⟩
        have h2 : storeFind store sid = some s1 := h1
        rw [h] at h2
        injection h2 with h2
        rw [← h2]
        rfl
  | op :: rest, store, hA => by
      have hA1 : opAvoids sid op = true := hA op (List.mem_cons_self op rest)
      have hAr : ∀ o ∈ rest, opAvoids sid o = true :=
        fun o ho => hA o (List.mem_cons_of_mem op ho)
      have ih := runOps_consec cfg sid rest (applyOp cfg store op).1 hAr
      have heff := applyOp_effect cfg sid store op hA1
      rw [runOps_cons]
      dsimp only
      rw [emittedForSid_append]
      constructor
      · intro h
        rcases heff with ⟨hem, hor⟩ | ⟨s, hfind, hfind', hem⟩
        · have hnone : storeFind (applyOp cfg store op).1 sid = none := by
            rcases hor with hor | hor
            · rw [hor, h]
            · exact hor
          obtain ⟨h1, h2⟩ := ih.1 hnone
          refine ⟨h1, ?_⟩
          rw [hem, h2]
          rfl
        · rw [hfind] at h
          cases h
      · intro s h
        rcases heff with ⟨hem, hor⟩ | ⟨s', hfind, hfind', hem⟩
        · rcases hor with hor | hor
          · obtain ⟨k, hk, hlast⟩ := ih.2 s (hor.trans h)
            refine ⟨k, ?_, fun s1 h1 => hlast s1 h1⟩
            rw [hem, hk]
            rfl
          · obtain ⟨h1, h2⟩ := ih.1 hor
            refine ⟨0, ?_, ?_⟩
            · rw [hem, h2]
              rfl
            · intro s1 hs1
              rw [h1] at hs1
              cases hs1
        · rw [h] at hfind
          injection hfind with he
          subst he
          obtain ⟨k, hk, hlast⟩ :=
            ih.2 { s with lastEventId := s.lastEventId + 1 } hfind'
          refine ⟨k + 1, ?_, ?_⟩
          · rw [hem, hk]
            rfl
          · intro s1 hs1
            have h3 := hlast s1 hs1
            rw [h3]
            dsimp only
            omega

/-- C4: over any sequence of transport operations that neither deletes
session `sid` nor recreates it under the same id (UUID freshness), the
event ids allocated for that session form an exact run of consecutive
integers starting right after the initial counter (so they are strictly
increasing and never repeat, and the counter is incremented exactly
once per emitted frame: the final counter is the initial counter plus
the number of emitted frames), and across any two prefixes of the
sequence the session's `lastEventId` never decreases.  Frames replayed
by a GET re-deliver previously allocated ids and allocate none. -/
theorem claim_C4_event_ids_strictly_increase
    (cfg : TransportCfg) (ops : List Op) (store : Store) (sid : String) (s0 : Session)
    (hA : ∀ op ∈ ops, opAvoids sid op = true)
    (h0 : storeFind store sid = some s0) :
    (∃ k, emittedForSid sid (runOps cfg store ops).2 = consecIds s0.lastEventId k
        ∧ List.Pairwise (· < ·) (emittedForSid sid (runOps cfg store ops).2)
        ∧ ∀ s1, storeFind (runOps cfg store ops).1 sid = some s1 →
            s1.lastEventId
              = s0.lastEventId + (emittedForSid sid (runOps cfg store ops).2).length)
    ∧ (∀ i j si sj, i ≤ j →
        storeFind (runOps cfg store (ops.take i)).1 sid = some si →
        storeFind (runOps cfg store (ops.take j)).1 sid = some sj →
        si.lastEventId ≤ sj.lastEventId) := by
  constructor
  · obtain ⟨k, hk, hlast⟩ := (runOps_consec cfg sid ops store hA).2 s0 h0
    refine ⟨k, hk, ?_, ?_⟩
    · rw [hk]
      exact consecIds_pairwise _ _
    · intro s1 h1
      rw [hk, consecIds_length]
      exact hlast s1 h1
  · intro i j si sj hij hsi hsj
    have hdecomp : ops.take j = ops.take i ++ (ops.drop i).take (j - i) := by
      rw [← List.take_add, Nat.add_sub_cancel' hij]
    have hmidA : ∀ o ∈ (ops.drop i).take (j - i), opAvoids sid o = true := by
      intro o ho
      exact hA o (List.drop_subset i ops (List.take_subset _ _ ho))
    rw [hdecomp, runOps_append] at hsj
    dsimp only at hsj
    obtain ⟨k, hk, hlast⟩ :=
      (runOps_consec cfg sid ((ops.drop i).take (j - i))
        (runOps cfg store (ops.take i)).1 hmidA).2 si hsi
    rw [hlast sj hsj]
    exact Nat.le_add_right _ _

/-- Witness for C4: two streamed ping POSTs addressed to session "s"
(initial counter 0) allocate exactly the consecutive ids 1, 2. -/
theorem claim_C4_witness :
    ∃ k, emittedForSid "s"
          (runOps cfg0 [{ id := "s", createdAt := 0, lastEventId := 0, pendingEvents := [] }]
            [Op.post 1 "f1" postSseToS, Op.post 2 "f2" postSseToS]).2
        = consecIds 0 k
      ∧ List.Pairwise (· < ·)
          (emittedForSid "s"
            (runOps cfg0 [{ id := "s", createdAt := 0, lastEventId := 0, pendingEvents := [] }]
              [Op.post 1 "f1" postSseToS, Op.post 2 "f2" postSseToS]).2)
      ∧ ∀ s1, storeFind
            (runOps cfg0 [{ id := "s", createdAt := 0, lastEventId := 0, pendingEvents := [] }]
              [Op.post 1 "f1" postSseToS, Op.post 2 "f2" postSseToS]).1 "s" = some s1 →
          s1.lastEventId
            = 0 + (emittedForSid "s"
                (runOps cfg0
                  [{ id := "s", createdAt := 0, lastEventId := 0, pendingEvents := [] }]
                  [Op.post 1 "f1" postSseToS, Op.post 2 "f2" postSseToS]).2).length :=
  (claim_C4_event_ids_strictly_increase cfg0
      [Op.post 1 "f1" postSseToS, Op.post 2 "f2" postSseToS]
      [{ id := "s", createdAt := 0, lastEventId := 0, pendingEvents := [] }]
      "s" { id := "s", createdAt := 0, lastEventId := 0, pendingEvents := [] }
      (by decide) rfl).1
